import Mathlib

/-! Verification model of snh_bridge_util.py, a command-line client for a
remote document-indexing service.  Python functions are embedded as pure
Lean functions; the process environment, the on-disk config file, the file
system and the HTTP transport are passed in explicitly as values.  Console
output and network traffic are recorded as explicit traces of actions. -/

/-- Characters treated as whitespace by Python str.strip (ASCII range). -/
def isPyWs (c : Char) : Bool :=
  c = ' ' || c = '\t' || c = '\n' || c = '\r' || c = '\x0b' || c = '\x0c'

/-- Drop leading whitespace from a character list (Python lstrip). -/
def dropWsL : List Char → List Char
  | [] => []
  | c :: rest => if isPyWs c then dropWsL rest else c :: rest

/-- Python rstrip on a character list. -/
def pyRstripL (l : List Char) : List Char := (dropWsL l.reverse).reverse

/-- Python strip on a character list. -/
def pyStripL (l : List Char) : List Char := pyRstripL (dropWsL l)

/-- Join lines with a newline character. -/
def joinNl : List (List Char) → List Char
  | [] => []
  | [l] => l
  | l :: rest => l ++ '\n' :: joinNl rest

/-- Split a character stream on universal newlines, the way Python text-mode
file reading normalises line endings: LF, CR and CRLF all end a line. -/
def usplit : List Char → List (List Char)
  | [] => [[]]
  | '\n' :: rest => [] :: usplit rest
  | '\r' :: '\n' :: rest => [] :: usplit rest
  | '\r' :: rest => [] :: usplit rest
  | c :: rest =>
    match usplit rest with
    | [] => [[c]]
    | f :: t => (c :: f) :: t

/-- Membership test for a character in a character list. -/
def hasCharL (c : Char) : List Char → Bool
  | [] => false
  | a :: rest => a = c || hasCharL c rest

/-- Python str.lower, modelled on the ASCII range (Char.toLower lowers
exactly the characters A-Z, which agrees with Python there). -/
def pyLower (s : String) : String := String.mk (s.data.map Char.toLower)

/-- Prefix test on character lists. -/
def isPrefixL : List Char → List Char → Bool
  | [], _ => true
  | _ :: _, [] => false
  | a :: as, b :: bs => a = b && isPrefixL as bs

/-- Suffix test on character lists. -/
def isSuffixL (suf l : List Char) : Bool := isPrefixL suf.reverse l.reverse

/-- Test used by find_pdf_files: file.lower().endswith(".pdf"). -/
def lowerEndsWithPdf (s : String) : Bool :=
  isSuffixL ".pdf".data (s.data.map Char.toLower)

/-- Model of os.path.basename: the component after the last slash. -/
def basename (s : String) : String :=
  String.mk ((s.data.reverse.takeWhile (fun c => c ≠ '/')).reverse)

/-- Python exceptions the modelled code can raise, tagged by class.  The
classes matter because except clauses select on them: the source catches
(KeyError, ValueError) in get_api_key, ConnectionError / RequestException /
Exception in upload_pdf, json.JSONDecodeError at two response sites, and
ValueError in main.  configparser.Error subclasses (parsingError,
interpolationError) are none of KeyError and ValueError. -/
inductive PyExc where
  | valueError (msg : String)
  | keyError (key : String)
  | attributeError (msg : String)
  | typeError (msg : String)
  | parsingError (msg : String)
  | interpolationError (msg : String)
  | jsonDecodeError (msg : String)
  | connectionError (msg : String)
  | requestException (msg : String)
deriving DecidableEq

/-- Python type(e).__name__ for the modelled exception classes. -/
def pyExcName : PyExc → String
  | .valueError _ => "ValueError"
  | .keyError _ => "KeyError"
  | .attributeError _ => "AttributeError"
  | .typeError _ => "TypeError"
  | .parsingError _ => "ParsingError"
  | .interpolationError _ => "InterpolationError"
  | .jsonDecodeError _ => "JSONDecodeError"
  | .connectionError _ => "ConnectionError"
  | .requestException _ => "RequestException"

/-- Python str(e) for the modelled exceptions (KeyError quotes its key). -/
def pyExcMsg : PyExc → String
  | .valueError m => m
  | .keyError k => "'" ++ k ++ "'"
  | .attributeError m => m
  | .typeError m => m
  | .parsingError m => m
  | .interpolationError m => m
  | .jsonDecodeError m => m
  | .connectionError m => m
  | .requestException m => m

/-- Decidable equality of Except values with decidable components, used to
evaluate the model at concrete inputs. -/
instance {e a : Type} [DecidableEq e] [DecidableEq a] : DecidableEq (Except e a) := fun x y =>
  match x, y with
  | .ok u, .ok v =>
    if h : u = v then .isTrue (by rw [h])
    else .isFalse (by intro hh; injection hh; contradiction)
  | .error u, .error v =>
    if h : u = v then .isTrue (by rw [h])
    else .isFalse (by intro hh; injection hh; contradiction)
  | .ok _, .error _ => .isFalse (fun hh => Except.noConfusion hh)
  | .error _, .ok _ => .isFalse (fun hh => Except.noConfusion hh)

/-- First-match lookup in an association list keyed by strings, the way a
Python dict built from parsed INI sections (or a JSON object) is read. -/
def lookupKV {α : Type} : List (String × α) → String → Option α
  | [], _ => none
  | (k, v) :: rest, key => if k = key then some v else lookupKV rest key

/-- Update the first binding of a key, or append a new one (dict update). -/
def upsertKV : List (String × String) → String → String → List (String × String)
  | [], key, v => [(key, v)]
  | (k0, v0) :: rest, key, v =>
    if k0 = key then (key, v) :: rest else (k0, v0) :: upsertKV rest key v

/-- Update key in section sec, adding the section at the end when missing
(ConfigParser add_section appends; write preserves section order). -/
def upsertSection :
    List (String × List (String × String)) → String → String → String →
    List (String × List (String × String))
  | [], sec, key, v => [(sec, [(key, v)])]
  | (s0, kvs) :: rest, sec, key, v =>
    if s0 = sec then (sec, upsertKV kvs key v) :: rest
    else (s0, kvs) :: upsertSection rest sec key v

/-- State of the config file at ~/.snh_bridge/config.ini.
absent: os.path.exists is false.  unreadable: the file exists but opening
it fails, which ConfigParser.read silently skips (it swallows OSError),
leaving the parser empty.  malformed: the file exists and opens but is not
parseable as INI, so ConfigParser.read raises a configparser parse error.
parsed: the file parses; sections map names to raw option values (the
parser's internal strings, before interpolation is applied on access). -/
inductive ConfigFileState where
  | absent
  | unreadable
  | malformed
  | parsed (sections : List (String × List (String × String)))
deriving DecidableEq

/-- Reading the config file into a ConfigParser, as both get_api_key and
setup_api_key do.  Only the malformed state raises. -/
def configReadSections :
    ConfigFileState → Except PyExc (List (String × List (String × String)))
  | .absent => .ok []
  | .unreadable => .ok []
  | .malformed => .error (.parsingError "File contains no section headers.")
  | .parsed s => .ok s

/-- BasicInterpolation.before_get, applied when config[s][k] is read,
modelled for values without %(name)s references: a doubled percent
collapses to one percent, and any other percent use raises an
interpolation error.  (In the real library a %(name)s reference can also
resolve to another option's value; no claim depends on that case, and every
other percent use raises there as well.) -/
def interpValueL : List Char → Except PyExc (List Char)
  | [] => .ok []
  | c :: rest =>
    if c = '%' then
      match rest with
      | '%' :: rest2 =>
        match interpValueL rest2 with
        | .ok w => .ok ('%' :: w)
        | .error e => .error e
      | _ => .error (.interpolationError "invalid interpolation syntax")
    else
      match interpValueL rest with
      | .ok w => .ok (c :: w)
      | .error e => .error e

/-- Reading config['auth']['api_key'] under the try of get_api_key: a
missing section or key raises KeyError, which the source catches and turns
into None; an interpolation error is not caught there. -/
def configLookup (cfg : ConfigFileState) : Except PyExc (Option String) :=
  match configReadSections cfg with
  | .error e => .error e
  | .ok s =>
    match lookupKV s "auth" with
    | none => .ok none
    | some kvs =>
      match lookupKV kvs "api_key" with
      | none => .ok none
      | some v =>
        match interpValueL v.data with
        | .ok w => .ok (some (String.mk w))
        | .error e => .error e

/-- Model of get_api_key: the environment variable SNH_BRIDGE_API_KEY wins
when it is set to a non-empty string (Python truthiness of os.getenv);
otherwise the config file is consulted.  Returns ok none for NotFound. -/
def get_api_key (env : Option String) (cfg : ConfigFileState) :
    Except PyExc (Option String) :=
  match env with
  | some s => if s = "" then configLookup cfg else .ok (some s)
  | none => configLookup cfg

mutual

/-- Fuel-driven scanner for BasicInterpolation.before_set: a value may use
percent only as %% or as a %(name)s reference with a non-empty name; any
other percent raises ValueError at assignment time.  The fuel is the length
of the remaining input, which every step respects. -/
def bsetGo : Nat → List Char → Bool
  | _, [] => true
  | 0, _ :: _ => false
  | fuel + 1, c :: rest =>
    if c = '%' then
      match rest with
      | '%' :: rest2 => bsetGo fuel rest2
      | '(' :: rest2 => bsetRef fuel rest2
      | _ => false
    else bsetGo fuel rest

/-- Scan the name part of a %(name)s reference: at least one character that
is not a closing parenthesis, then the closing parenthesis and an s. -/
def bsetRef : Nat → List Char → Bool
  | _, [] => false
  | 0, _ :: _ => false
  | fuel + 1, c :: rest => if c = ')' then false else bsetRefTail fuel rest

/-- Scan the rest of a %(name)s reference after its first name character. -/
def bsetRefTail : Nat → List Char → Bool
  | _, [] => false
  | 0, _ :: _ => false
  | fuel + 1, c :: rest =>
    if c = ')' then
      match rest with
      | 's' :: rest2 => bsetGo fuel rest2
      | _ => false
    else bsetRefTail fuel rest

end

/-- BasicInterpolation.before_set as a predicate on the stored value. -/
def before_set_okL (l : List Char) : Bool := bsetGo l.length l

/-- Continuation lines of a multiline INI value must be blank or start with
whitespace; otherwise the re-read of the written file fails to parse.
(A continuation line that instead looks like a new option or section header
would be consumed as one; the model folds that case into the parse error,
which no claim exercises.) -/
def contLineOk : List Char → Bool
  | [] => true
  | c :: _ => isPyWs c

/-- Parse the continuation lines back, stripping each as ConfigParser does
(blank lines inside a value are kept as empty strings). -/
def parseBackLines : List (List Char) → Except PyExc (List (List Char))
  | [] => .ok []
  | l :: rest =>
    if contLineOk l then
      match parseBackLines rest with
      | .ok r => .ok (pyStripL l :: r)
      | .error e => .error e
    else .error (.parsingError "Source contains parsing errors.")

/-- The writer's value.replace of newline by newline-tab. -/
def expandCont : List Char → List Char
  | [] => []
  | c :: rest =>
    if c = '\n' then '\n' :: '\t' :: expandCont rest else c :: expandCont rest

/-- Value recovered when ConfigParser re-reads a value it wrote: the writer
replaces every newline by newline-tab; the reader splits on universal
newlines, strips every line, joins with newlines and right-strips. -/
def parseBackValueL (k : List Char) : Except PyExc (List Char) :=
  match usplit (expandCont k) with
  | [] => .error (.parsingError "Source contains parsing errors.")
  | first :: rest =>
    match parseBackLines rest with
    | .ok conts => .ok (pyRstripL (joinNl (pyStripL first :: conts)))
    | .error e => .error e

/-- The pure write-then-read transformation on values whose written form
parses back: strip every line and drop trailing blank lines. -/
def iniReadBackL (l : List Char) : List Char :=
  pyRstripL (joinNl ((usplit l).map pyStripL))

/-- String-level wrapper of iniReadBackL. -/
def iniReadBack (s : String) : String := String.mk (iniReadBackL s.data)

/-- Fixed per-user path of the config file (os.path.expanduser applied to
~/.snh_bridge/config.ini, kept symbolic). -/
def configFilePath : String := "~/.snh_bridge/config.ini"

/-- Base URL of the remote service. -/
def BASE_URL : String := "https://vector-knowledge-base-RichBodo.replit.app"

/-- Message of the ValueError that get_headers raises when no key resolves. -/
def missingKeyMsg : String :=
  "API key not found. Please either:\n1. Set SNH_BRIDGE_API_KEY environment variable, or\n2. Run: python snh_bridge_util.py configure --api-key YOUR_API_KEY"

/-- JSON values as the json module yields them.  Numeric payloads are
modelled as integers; no claim depends on fractional values. -/
inductive JsonVal where
  | null
  | bool (b : Bool)
  | num (n : Int)
  | str (s : String)
  | arr (elems : List JsonVal)
  | obj (fields : List (String × JsonVal))

/-- Python truthiness of a JSON value. -/
def JsonVal.truthy : JsonVal → Bool
  | .null => false
  | .bool b => b
  | .num n => n != 0
  | .str s => s != ""
  | .arr xs => !xs.isEmpty
  | .obj fs => !fs.isEmpty

/-- dict.get on a parsed JSON object. -/
def jget (fs : List (String × JsonVal)) (key : String) : Option JsonVal :=
  lookupKV fs key

/-- An HTTP response as the requests library presents it.  body none means
response.json() raises json.JSONDecodeError; text is the raw body text and
url the final URL requests records on the response. -/
structure HttpResponse where
  status : Nat
  headers : List (String × String)
  body : Option JsonVal
  text : String
  url : String

/-- Case-insensitive header lookup (requests uses a case-insensitive dict
for response headers). -/
def headerGet (hs : List (String × String)) (key : String) : Option String :=
  (hs.find? (fun p => pyLower p.1 == pyLower key)).map (·.2)

/-- HTTP methods the tool issues. -/
inductive Method where
  | post
  | get
deriving DecidableEq

/-- Payload of an outbound request. -/
inductive ReqBody where
  | multipartFile (field : String) (filename : String) (size : Nat) (mime : String)
  | jsonBody (fields : List (String × String))
  | noBody
deriving DecidableEq

/-- An outbound request exactly as built by the source: method, URL and the
explicit header dict passed to the requests call (session.get for redirect
hops passes no headers, so its list is empty). -/
structure Request where
  method : Method
  url : String
  headers : List (String × String)
  body : ReqBody
deriving DecidableEq

/-- Every print site of the source, as a structured output event carrying
the dynamic data that the corresponding f-string interpolates. -/
inductive OutputEvent where
  | sendingPost (url : String)
  | fileMissing (path : String)
  | startingUpload (path : String)
  | targetUrl (url : String)
  | openingFile
  | fileSizeIs (n : Nat)
  | debugApiKeyLen (n : Nat)
  | debugHeaders (hs : List (String × String))
  | fileOpened
  | uploadSent (n : Nat)
  | redirectHop (status : Nat) (target : String)
  | followedRedirects (hops : Nat) (finalUrl : String)
  | finalStatus (status : Nat)
  | responseHeaders (hs : List (String × String))
  | rawResponse (text : String)
  | uploadSuccessBanner
  | documentId (v : JsonVal)
  | serverMessage (v : JsonVal)
  | metadataBanner
  | metaFilename (v : Option JsonVal)
  | metaSize (v : Option JsonVal)
  | metaContentType (v : Option JsonVal)
  | serverError (v : JsonVal)
  | malformedJson (contentType : Option String) (text : String)
  | non200 (status : Nat)
  | non200Error (v : JsonVal)
  | non200Raw (text : String)
  | connError (msg : String)
  | requestError (msg : String)
  | unexpectedError (ty : String) (msg : String)
  | queryNoMatches
  | searchResultsBanner
  | queryItem (idx : Nat) (title content score : JsonVal)
      (source fileType uploadedAt fileSize : Option JsonVal)
  | queryHttpError (v : JsonVal)
  | queryUnexpectedFormat (text : String)
  | queryError (msg : String)
  | notADirectory (path : String)
  | noPdfsFound (path : String)
  | foundPdfs (n : Nat)
  | fileListed (rel : String)
  | askedConfirm (n : Nat)
  | uploadCancelled
  | uploadingFile (rel : String)
  | uploadSummary (succ : Nat) (total : Nat)
  | failedBanner
  | failedItem (rel : String)
  | apiKeySaved (path : String)
  | mainError (msg : String)
  | fileNotFoundMain (path : String)
  | dirNotFoundMain (path : String)
  | uncaught (ty : String) (msg : String)

/-- One step of observable behaviour: a console print or a network call. -/
inductive Act where
  | out (e : OutputEvent)
  | net (r : Request)

/-- The network calls of a trace, in order. -/
def requestsOf (as : List Act) : List Request :=
  as.filterMap fun a => match a with | .net r => some r | .out _ => none

/-- Count the output events of a trace satisfying a predicate. -/
def countEvent (p : OutputEvent → Bool) (as : List Act) : Nat :=
  as.countP fun a => match a with | .out e => p e | .net _ => false

/-- Model of setup_api_key: read any existing config (a malformed file
raises out of the function), run the interpolation check that assignment
performs, then write the file; the stored state is what a later read will
see, so the new value is pushed through the write-then-read transformation
(a value whose written form does not parse back leaves a file that read()
will reject, i.e. a malformed state). -/
def setup_api_key (cfg : ConfigFileState) (k : String) :
    Except PyExc (ConfigFileState × List Act) :=
  match configReadSections cfg with
  | .error e => .error e
  | .ok sections =>
    if before_set_okL k.data then
      match parseBackValueL k.data with
      | .ok v =>
        .ok (.parsed (upsertSection sections "auth" "api_key" (String.mk v)),
             [.out (.apiKeySaved configFilePath)])
      | .error _ => .ok (.malformed, [.out (.apiKeySaved configFilePath)])
    else .error (.valueError "invalid interpolation syntax in value")

/-- Store then resolve: run setup_api_key, then get_api_key with the
environment variable unset, reading the file setup wrote. -/
def storeThenResolve (cfg : ConfigFileState) (k : String) :
    Except PyExc (Option String) :=
  match setup_api_key cfg k with
  | .error e => .error e
  | .ok (st, _) => get_api_key none st

/-- The header dict built by get_headers. -/
structure Headers where
  authorization : String
  contentType : Option String
deriving DecidableEq

/-- The header dict in insertion order, as printed and as sent. -/
def headersList (h : Headers) : List (String × String) :=
  ("Authorization", h.authorization) ::
    (match h.contentType with
     | some c => [("Content-Type", c)]
     | none => [])

/-- Model of get_headers: resolve the key (propagating anything
get_api_key raises), raise ValueError when no key or an empty key came
back, otherwise build the dict, with Content-Type only for non-file
uploads.  The returned actions are its debug prints. -/
def get_headers (env : Option String) (cfg : ConfigFileState)
    (is_file_upload : Bool) : Except PyExc (Headers × List Act) :=
  match get_api_key env cfg with
  | .error e => .error e
  | .ok k =>
    match k with
    | none => .error (.valueError missingKeyMsg)
    | some key =>
      if key = "" then .error (.valueError missingKeyMsg)
      else
        let h : Headers :=
          { authorization := "Bearer " ++ key,
            contentType := if is_file_upload then none else some "application/json" }
        .ok (h, [.out (.debugApiKeyLen key.length), .out (.debugHeaders (headersList h))])

/-- Outcome of one wire call: a response, or one of the two transport-level
exception classes the source distinguishes. -/
inductive NetOutcome where
  | ok (r : HttpResponse)
  | connectionFailed (msg : String)
  | requestFailed (msg : String)

/-- The status codes the manual redirect loop follows. -/
def redirectCodes : List Nat := [301, 302, 303, 307, 308]

/-- The function-level except clauses of upload_pdf, in source order:
ConnectionError first, then RequestException, then Exception. -/
def uploadExcActions : PyExc → List Act
  | .connectionError m => [.out (.connError m)]
  | .requestException m => [.out (.requestError m)]
  | e => [.out (.unexpectedError (pyExcName e) (pyExcMsg e))]

/-- The manual redirect loop of upload_pdf: while the status is a redirect,
read the Location header (a missing one raises KeyError), print the hop and
issue a bare session.get to the target with no headers dict.  gets supplies
the responses to those GETs in order; running out of supplied outcomes is
the model's boundary and surfaces as a transport error.  Returns the trace
of the loop and either the terminal response with the hop count or the
exception that escaped. -/
def followRedirects : HttpResponse → List NetOutcome →
    List Act × Except PyExc (HttpResponse × Nat)
  | r, [] =>
    if redirectCodes.contains r.status then
      match headerGet r.headers "Location" with
      | none => ([], .error (.keyError "Location"))
      | some loc =>
        ([.out (.redirectHop r.status loc),
          .net { method := .get, url := loc, headers := [], body := .noBody }],
         .error (.requestException "no response supplied"))
    else ([], .ok (r, 0))
  | r, g :: rest =>
    if redirectCodes.contains r.status then
      match headerGet r.headers "Location" with
      | none => ([], .error (.keyError "Location"))
      | some loc =>
        let acts0 : List Act :=
          [.out (.redirectHop r.status loc),
           .net { method := .get, url := loc, headers := [], body := .noBody }]
        match g with
        | .connectionFailed m => (acts0, .error (.connectionError m))
        | .requestFailed m => (acts0, .error (.requestException m))
        | .ok r2 =>
          match followRedirects r2 rest with
          | (acts, .ok (fin, n)) => (acts0 ++ acts, .ok (fin, n + 1))
          | (acts, .error e) => (acts0 ++ acts, .error e)
    else ([], .ok (r, 0))

/-- Trace and return value of one upload_pdf call. -/
structure UploadTrace where
  actions : List Act
  result : Bool

/-- URL of the upload endpoint. -/
def uploadUrl : String := BASE_URL ++ "/api/upload"

/-- URL of the query endpoint. -/
def queryUrl : String := BASE_URL ++ "/api/query"

/-- Message of the json.JSONDecodeError raised on an empty or non-JSON body. -/
def jsonDecodeMsg : String := "Expecting value: line 1 column 1 (char 0)"

/-- Classification of the terminal response of an upload, i.e. the whole
if response.status_code == 200 tree: the extra prints it makes and the
value the function returns.  A 200 body reporting success is read with
direct indexing for document_id and message, so their absence raises
KeyError into the function's generic handler. -/
def classifyResponse (resp : HttpResponse) : List Act × Bool :=
  if resp.status == 200 then
    match resp.body with
    | none =>
      ([.out (.malformedJson (headerGet resp.headers "content-type") resp.text)], false)
    | some (JsonVal.obj fs) =>
      if (match jget fs "success" with | some v => v.truthy | none => false) then
        match jget fs "document_id" with
        | none =>
          (Act.out .uploadSuccessBanner :: uploadExcActions (.keyError "document_id"), false)
        | some did =>
          match jget fs "message" with
          | none =>
            ([Act.out .uploadSuccessBanner, Act.out (.documentId did)] ++
              uploadExcActions (.keyError "message"), false)
          | some msg =>
            match (jget fs "metadata").getD (JsonVal.obj []) with
            | JsonVal.obj mfs =>
              ([.out .uploadSuccessBanner, .out (.documentId did),
                .out (.serverMessage msg), .out .metadataBanner,
                .out (.metaFilename (jget mfs "filename")),
                .out (.metaSize (jget mfs "size")),
                .out (.metaContentType (jget mfs "content_type"))], true)
            | _ =>
              ([Act.out .uploadSuccessBanner, Act.out (.documentId did),
                Act.out (.serverMessage msg), Act.out .metadataBanner] ++
                uploadExcActions (.attributeError "object has no attribute get"), false)
      else
        ([.out (.serverError ((jget fs "error").getD (JsonVal.str "Unknown error")))], false)
    | some _ =>
      (uploadExcActions (.attributeError "object has no attribute get"), false)
  else
    (Act.out (.non200 resp.status) ::
      (match resp.body with
       | some (JsonVal.obj fs) =>
         [Act.out (.non200Error ((jget fs "error").getD (JsonVal.str "Unknown error")))]
       | some _ =>
         uploadExcActions (.attributeError "object has no attribute get")
       | none => [Act.out (.non200Raw resp.text)]), false)

/-- Model of upload_pdf.  Inputs beyond the path are the bits of world the
source reads: whether the file exists, its size, the process environment
and config file, the response to the POST and the responses to any
redirect-follow GETs.  The body runs inside a try whose handlers
(ConnectionError, RequestException, Exception) are applied by
uploadExcActions; json.JSONDecodeError is handled locally at the two
response.json() sites. -/
def upload_pdf (file_path : String) (fileExists : Bool) (fileSize : Nat)
    (env : Option String) (cfg : ConfigFileState)
    (post : NetOutcome) (gets : List NetOutcome) : UploadTrace :=
  let a0 : List Act := [.out (.sendingPost uploadUrl)]
  if !fileExists then
    { actions := a0 ++ [.out (.fileMissing file_path)], result := false }
  else
    let a1 := a0 ++ [.out (.startingUpload file_path), .out (.targetUrl uploadUrl),
                     .out .openingFile, .out (.fileSizeIs fileSize)]
    match get_headers env cfg true with
    | .error e => { actions := a1 ++ uploadExcActions e, result := false }
    | .ok (h, ha) =>
      let hdrs := headersList h
      let postReq : Request :=
        { method := .post, url := uploadUrl, headers := hdrs,
          body := .multipartFile "file" (basename file_path) fileSize "application/pdf" }
      let a2 := a1 ++ ha ++ [.out (.debugHeaders hdrs), .out .fileOpened, .net postReq]
      match post with
      | .connectionFailed m => { actions := a2 ++ [.out (.connError m)], result := false }
      | .requestFailed m => { actions := a2 ++ [.out (.requestError m)], result := false }
      | .ok r0 =>
        let a3 := a2 ++ [.out (.uploadSent fileSize)]
        match followRedirects r0 gets with
        | (racts, .error e) => { actions := a3 ++ racts ++ uploadExcActions e, result := false }
        | (racts, .ok (resp, hops)) =>
          let a4 := a3 ++ racts ++
            (if hops > 0 then [Act.out (.followedRedirects hops resp.url)] else []) ++
            [.out (.finalStatus resp.status), .out (.responseHeaders resp.headers),
             .out (.rawResponse resp.text)]
          let c := classifyResponse resp
          { actions := a4 ++ c.1, result := c.2 }

/-- Rendering loop over query results, indexing from 1.  The per-field
prints of one result are folded into one queryItem event; a missing
title/content/score field or a non-dict metadata raises into the generic
handler of query_documents, which reports str(e) and stops the loop (the
fields are read in print order, so the first missing one is reported). -/
def renderLoop : Nat → List JsonVal → List Act
  | _, [] => []
  | i, JsonVal.obj fs :: rest =>
    (match jget fs "title" with
     | none => [Act.out (.queryError (pyExcMsg (.keyError "title")))]
     | some t =>
       match jget fs "content" with
       | none => [Act.out (.queryError (pyExcMsg (.keyError "content")))]
       | some c =>
         match jget fs "score" with
         | none => [Act.out (.queryError (pyExcMsg (.keyError "score")))]
         | some sc =>
           match (jget fs "metadata").getD (JsonVal.obj []) with
           | JsonVal.obj mfs =>
             Act.out (.queryItem i t c sc (jget mfs "source") (jget mfs "file_type")
                   (jget mfs "uploaded_at") (jget mfs "file_size")) :: renderLoop (i + 1) rest
           | _ => [Act.out (.queryError "object has no attribute get")])
  | _, _ :: _ => [Act.out (.queryError "not subscriptable")]

/-- Model of query_documents.  Everything runs inside a try with a single
generic handler that prints the exception text, so a missing credential, a
transport failure or a malformed body all surface as a queryError print and
a plain return. -/
def query_documents (env : Option String) (cfg : ConfigFileState)
    (query_text : String) (net : NetOutcome) : List Act :=
  match get_headers env cfg false with
  | .error e => [.out (.queryError (pyExcMsg e))]
  | .ok (h, ha) =>
    let req : Request :=
      { method := .post, url := queryUrl, headers := headersList h,
        body := .jsonBody [("query", query_text)] }
    let as := ha ++ [Act.net req]
    match net with
    | .connectionFailed m => as ++ [.out (.queryError m)]
    | .requestFailed m => as ++ [.out (.queryError m)]
    | .ok r =>
      if r.status == 200 then
        match r.body with
        | none => as ++ [.out (.queryError jsonDecodeMsg)]
        | some (JsonVal.obj fs) =>
          match (jget fs "results").getD (JsonVal.arr []) with
          | JsonVal.arr items =>
            if items.isEmpty then as ++ [.out .queryNoMatches]
            else as ++ [Act.out .searchResultsBanner] ++ renderLoop 1 items
          | v =>
            if v.truthy then as ++ [.out (.queryError "not iterable")]
            else as ++ [.out .queryNoMatches]
        | some _ => as ++ [.out (.queryError "object has no attribute get")]
      else
        match r.body with
        | some (JsonVal.obj fs) =>
          as ++ [.out (.queryHttpError ((jget fs "error").getD (JsonVal.str "Unknown error")))]
        | some _ => as ++ [.out (.queryError "object has no attribute get")]
        | none => as ++ [.out (.queryUnexpectedFormat r.text)]

/-- One file met during the os.walk traversal: its joined full path, its
path relative to the walked directory, and its bare file name (the name is
what the .pdf filter inspects). -/
structure WalkEntry where
  full : String
  rel : String
  fname : String
deriving DecidableEq

/-- A directory as the batch command sees it: its path, whether it is a
directory, and the files os.walk yields in traversal order. -/
structure DirListing where
  path : String
  isDir : Bool
  walk : List WalkEntry

/-- Model of find_pdf_files: keep the walked files whose name lowercased
ends in .pdf, preserving traversal order. -/
def find_pdf_files (d : DirListing) : List WalkEntry :=
  d.walk.filter (fun e => lowerEndsWithPdf e.fname)

/-- World supplied to one upload inside a batch: the per-file filesystem
and transport behaviour. -/
structure UploadScenario where
  fileExists : Bool
  size : Nat
  post : NetOutcome
  gets : List NetOutcome

/-- Whether one upload call succeeds under a scenario. -/
def uploadOk (env : Option String) (cfg : ConfigFileState)
    (sc : UploadScenario) (full : String) : Bool :=
  (upload_pdf full sc.fileExists sc.size env cfg sc.post sc.gets).result

/-- The per-file loop of batch_upload, from file index i on: upload each
file in order, count successes and collect the relative paths of failures
in order.  scen gives the world for the upload at each index. -/
def batchLoop (env : Option String) (cfg : ConfigFileState)
    (scen : Nat → UploadScenario) :
    Nat → List WalkEntry → List Act × Nat × List String
  | _, [] => ([], 0, [])
  | i, e :: rest =>
    let sc := scen i
    let t := upload_pdf e.full sc.fileExists sc.size env cfg sc.post sc.gets
    let r := batchLoop env cfg scen (i + 1) rest
    (Act.out (.uploadingFile e.rel) :: t.actions ++ r.1,
     (if t.result then 1 else 0) + r.2.1,
     (if t.result then ([] : List String) else [e.rel]) ++ r.2.2)

/-- Result of one batch_upload call: its trace, the final tally (success
count and ordered failed relative paths) when the run reaches the upload
loop, and the returned boolean. -/
structure BatchResult where
  actions : List Act
  tally : Option (Nat × List String)
  result : Bool

/-- The part of batch_upload after the confirmation gate: run the loop and
print the summary; the return value is success_count == total. -/
def batchProceed (env : Option String) (cfg : ConfigFileState)
    (scen : Nat → UploadScenario) (pdfs : List WalkEntry) (pre : List Act) :
    BatchResult :=
  let r := batchLoop env cfg scen 0 pdfs
  { actions := pre ++ r.1 ++
      [Act.out (.uploadSummary r.2.1 pdfs.length)] ++
      (if r.2.2.isEmpty then []
       else Act.out .failedBanner :: r.2.2.map (fun x => Act.out (.failedItem x))),
    tally := some (r.2.1, r.2.2),
    result := r.2.1 == pdfs.length }

/-- Model of batch_upload: validate the directory, discover PDFs (none
found is an early False), list them, ask for confirmation when more than 10
were found (input().lower() compared with the single letter y), then upload
sequentially in discovery order. -/
def batch_upload (env : Option String) (cfg : ConfigFileState) (d : DirListing)
    (confirm : String) (scen : Nat → UploadScenario) : BatchResult :=
  if !d.isDir then
    { actions := [.out (.notADirectory d.path)], tally := none, result := false }
  else
    let pdfs := find_pdf_files d
    if pdfs.isEmpty then
      { actions := [.out (.noPdfsFound d.path)], tally := none, result := false }
    else
      let aList := Act.out (.foundPdfs pdfs.length) ::
        pdfs.map (fun e => Act.out (.fileListed e.rel))
      if pdfs.length > 10 then
        if pyLower confirm == "y" then
          batchProceed env cfg scen pdfs (aList ++ [Act.out (.askedConfirm pdfs.length)])
        else
          { actions := aList ++ [Act.out (.askedConfirm pdfs.length), Act.out .uploadCancelled],
            tally := none, result := false }
      else batchProceed env cfg scen pdfs aList

/-- The four CLI subcommands. -/
inductive Command where
  | configure (apiKey : String)
  | upload (file : String)
  | batch (dir : String)
  | query (text : String)

/-- The world one process invocation runs in. -/
structure World where
  env : Option String
  cfg : ConfigFileState
  pathExists : Bool
  size : Nat
  post : NetOutcome
  gets : List NetOutcome
  dir : DirListing
  confirm : String
  scen : Nat → UploadScenario
  queryNet : NetOutcome

/-- Exit code and trace of one process invocation. -/
structure MainResult where
  exitCode : Nat
  actions : List Act

/-- Model of main after argument parsing: precondition checks exit 1; the
command handlers are called for their effects and their return values are
discarded, so a handler that swallows its own errors lets main fall off the
end with exit status 0.  The except ValueError handler can only see
exceptions the handlers re-raise; of the modelled commands only configure
lets one escape. -/
def mainRun (w : World) : Command → MainResult
  | .configure k =>
    match setup_api_key w.cfg k with
    | .ok (_, as) => { exitCode := 0, actions := as }
    | .error (.valueError m) => { exitCode := 1, actions := [.out (.mainError m)] }
    | .error e => { exitCode := 1, actions := [.out (.uncaught (pyExcName e) (pyExcMsg e))] }
  | .upload f =>
    if !w.pathExists then { exitCode := 1, actions := [.out (.fileNotFoundMain f)] }
    else
      { exitCode := 0,
        actions := (upload_pdf f w.pathExists w.size w.env w.cfg w.post w.gets).actions }
  | .batch dpath =>
    if !w.pathExists then { exitCode := 1, actions := [.out (.dirNotFoundMain dpath)] }
    else
      { exitCode := 0,
        actions := (batch_upload w.env w.cfg w.dir w.confirm w.scen).actions }
  | .query t =>
    { exitCode := 0, actions := query_documents w.env w.cfg t w.queryNet }

/-- A request carries a non-empty Bearer credential in its Authorization
header. -/
def hasBearer (r : Request) : Prop :=
  ∃ k : String, k ≠ "" ∧ ("Authorization", "Bearer " ++ k) ∈ r.headers

/-- Concrete world with no credential anywhere: environment unset, config
file absent, target file and directory present, one PDF discovered; the
transport outcomes are unreachable placeholders. -/
def noKeyWorld : World :=
  { env := none, cfg := .absent, pathExists := true, size := 5,
    post := .requestFailed "unused", gets := [],
    dir := { path := "d", isDir := true,
             walk := [{ full := "d/a.pdf", rel := "a.pdf", fname := "a.pdf" }] },
    confirm := "", scen := fun _ => ⟨true, 0, .requestFailed "unused", []⟩,
    queryNet := .requestFailed "unused" }

/-- Print of the missing-credential ValueError through the generic handler
of upload_pdf (str(e) of the ValueError is the missing-key message). -/
def isMissingKeyUnexpected : OutputEvent → Bool
  | .unexpectedError t m => t == "ValueError" && m == missingKeyMsg
  | _ => false

/-- Print of the missing-credential ValueError through the generic handler
of query_documents. -/
def isMissingKeyQueryError : OutputEvent → Bool
  | .queryError m => m == missingKeyMsg
  | _ => false

/-- Predicate for the per-file "Uploading ..." print of batch_upload. -/
def isUploadingEvent : OutputEvent → Bool
  | .uploadingFile _ => true
  | _ => false

/-- Predicate for the "Upload cancelled" print of batch_upload. -/
def isCancelEvent : OutputEvent → Bool
  | .uploadCancelled => true
  | _ => false

/-- Concrete directory with two PDFs, used to exercise the batch tally. -/
def w4dir : DirListing :=
  { path := "docs", isDir := true,
    walk := [{ full := "docs/a.pdf", rel := "a.pdf", fname := "a.pdf" },
             { full := "docs/b.pdf", rel := "b.pdf", fname := "b.pdf" }] }

/-- Concrete per-file scenarios: the first upload succeeds, every later
one fails at the transport. -/
def w4scen : Nat → UploadScenario := fun i =>
  if i = 0 then
    { fileExists := true, size := 3,
      post := NetOutcome.ok ⟨200, [],
        some (JsonVal.obj [("success", JsonVal.bool true),
          ("document_id", JsonVal.str "X"), ("message", JsonVal.str "ok"),
          ("metadata", JsonVal.obj [])]), "t", "u"⟩,
      gets := [] }
  else
    { fileExists := true, size := 3,
      post := NetOutcome.connectionFailed "refused", gets := [] }

/-- Concrete directory with eleven PDFs, enough to trip the confirmation
threshold of ten. -/
def w11dir : DirListing :=
  { path := "docs", isDir := true,
    walk := [{ full := "docs/f01.pdf", rel := "f01.pdf", fname := "f01.pdf" },
             { full := "docs/f02.pdf", rel := "f02.pdf", fname := "f02.pdf" },
             { full := "docs/f03.pdf", rel := "f03.pdf", fname := "f03.pdf" },
             { full := "docs/f04.pdf", rel := "f04.pdf", fname := "f04.pdf" },
             { full := "docs/f05.pdf", rel := "f05.pdf", fname := "f05.pdf" },
             { full := "docs/f06.pdf", rel := "f06.pdf", fname := "f06.pdf" },
             { full := "docs/f07.pdf", rel := "f07.pdf", fname := "f07.pdf" },
             { full := "docs/f08.pdf", rel := "f08.pdf", fname := "f08.pdf" },
             { full := "docs/f09.pdf", rel := "f09.pdf", fname := "f09.pdf" },
             { full := "docs/f10.pdf", rel := "f10.pdf", fname := "f10.pdf" },
             { full := "docs/f11.pdf", rel := "f11.pdf", fname := "f11.pdf" }] }

/-- Whether resolving the config file can raise nothing: the file is
absent, unreadable (silently skipped), or parses with an auth/api_key
entry that is either missing or interpolation-clean.  The malformed state
and a percent-broken entry are the raising cases. -/
def configReadsClean : ConfigFileState → Bool
  | .absent => true
  | .unreadable => true
  | .malformed => false
  | .parsed s =>
    match lookupKV s "auth" with
    | none => true
    | some kvs =>
      match lookupKV kvs "api_key" with
      | none => true
      | some v =>
        match interpValueL v.data with
        | .ok _ => true
        | .error _ => false

/-! Lemmas about the INI value round trip and interpolation. -/

lemma hasCharL_cons (c a : Char) (l : List Char) :
    hasCharL c (a :: l) = (decide (a = c) || hasCharL c l) := rfl

lemma usplit_cons_other (c : Char) (rest : List Char) (h1 : c ≠ '\n') (h2 : c ≠ '\r') :
    usplit (c :: rest) =
      match usplit rest with
      | [] => [[c]]
      | f :: t => (c :: f) :: t := by
  rw [usplit]
  · exact fun hc => h1 hc
  · exact fun _ hc _ => h2 hc
  · exact fun hc => h2 hc

lemma usplit_nocr_ne_nil (l : List Char) (h : hasCharL '\r' l = false) :
    usplit l ≠ [] := by
  induction l with
  | nil => simp [usplit]
  | cons c rest ih =>
    rw [hasCharL_cons] at h
    simp only [Bool.or_eq_false_iff, decide_eq_false_iff_not] at h
    obtain ⟨h2, hrest⟩ := h
    by_cases h1 : c = '\n'
    · subst h1; simp [usplit]
    · rw [usplit_cons_other c rest h1 h2]
      cases husp : usplit rest with
      | nil => simp
      | cons f t => simp

lemma expandCont_nl (rest : List Char) :
    expandCont ('\n' :: rest) = '\n' :: '\t' :: expandCont rest := by
  simp [expandCont]

lemma expandCont_other (c : Char) (rest : List Char) (h : c ≠ '\n') :
    expandCont (c :: rest) = c :: expandCont rest := by
  simp [expandCont, h]

lemma usplit_expandCont (l : List Char) (h : hasCharL '\r' l = false) :
    usplit (expandCont l) =
      match usplit l with
      | [] => []
      | f :: t => f :: t.map (fun x => '\t' :: x) := by
  induction l with
  | nil => rfl
  | cons c rest ih =>
    rw [hasCharL_cons] at h
    simp only [Bool.or_eq_false_iff, decide_eq_false_iff_not] at h
    obtain ⟨h2, hrest⟩ := h
    by_cases h1 : c = '\n'
    · subst h1
      rw [expandCont_nl]
      have e1 : usplit ('\n' :: '\t' :: expandCont rest) =
          [] :: usplit ('\t' :: expandCont rest) := rfl
      rw [e1, usplit_cons_other '\t' _ (by decide) (by decide), ih hrest]
      cases hu : usplit rest with
      | nil => exact absurd hu (usplit_nocr_ne_nil rest hrest)
      | cons f t =>
        have e2 : usplit ('\n' :: rest) = [] :: usplit rest := rfl
        rw [e2, hu]
        simp
    · rw [expandCont_other c rest h1, usplit_cons_other c _ h1 h2, ih hrest,
          usplit_cons_other c rest h1 h2]
      cases hu : usplit rest with
      | nil => exact absurd hu (usplit_nocr_ne_nil rest hrest)
      | cons f t => simp [hu]

lemma pyStripL_tab_cons (l : List Char) : pyStripL ('\t' :: l) = pyStripL l := rfl

lemma parseBackLines_tabbed (t : List (List Char)) :
    parseBackLines (t.map (fun x => '\t' :: x)) = .ok (t.map pyStripL) := by
  induction t with
  | nil => rfl
  | cons x rest ih =>
    simp [parseBackLines, contLineOk, isPyWs, ih, pyStripL_tab_cons]

lemma usplit_expandCont_cons (l f : List Char) (t : List (List Char))
    (h : hasCharL '\r' l = false) (hu : usplit l = f :: t) :
    usplit (expandCont l) = f :: t.map (fun x => '\t' :: x) := by
  have hA := usplit_expandCont l h
  rw [hu] at hA
  exact hA

lemma parseBackValueL_nocr (l : List Char) (h : hasCharL '\r' l = false) :
    parseBackValueL l = .ok (iniReadBackL l) := by
  cases hu : usplit l with
  | nil => exact absurd hu (usplit_nocr_ne_nil l h)
  | cons f t =>
    unfold parseBackValueL iniReadBackL
    rw [usplit_expandCont_cons l f t h hu, hu]
    have hred : (match f :: t.map (fun x => '\t' :: x) with
        | [] => Except.error (PyExc.parsingError "Source contains parsing errors.")
        | first :: rest =>
          match parseBackLines rest with
          | Except.ok conts => Except.ok (pyRstripL (joinNl (pyStripL first :: conts)))
          | Except.error e => Except.error e) =
        (match parseBackLines (t.map (fun x => '\t' :: x)) with
          | Except.ok conts => Except.ok (pyRstripL (joinNl (pyStripL f :: conts)))
          | Except.error e => Except.error e) := rfl
    rw [hred, parseBackLines_tabbed]
    simp

lemma bsetGo_no_percent (l : List Char) :
    ∀ fuel : Nat, l.length ≤ fuel → hasCharL '%' l = false → bsetGo fuel l = true := by
  induction l with
  | nil => intro fuel _ _; cases fuel <;> rfl
  | cons c rest ih =>
    intro fuel hlen hpc
    rw [hasCharL_cons] at hpc
    simp only [Bool.or_eq_false_iff, decide_eq_false_iff_not] at hpc
    obtain ⟨h1, h2⟩ := hpc
    cases fuel with
    | zero => simp only [List.length_cons] at hlen; omega
    | succ f =>
      simp only [bsetGo, if_neg h1]
      exact ih f (by simpa using Nat.le_of_succ_le_succ hlen) h2

lemma interpValueL_no_percent (l : List Char) (h : hasCharL '%' l = false) :
    interpValueL l = .ok l := by
  induction l with
  | nil => rfl
  | cons c rest ih =>
    rw [hasCharL_cons] at h
    simp only [Bool.or_eq_false_iff, decide_eq_false_iff_not] at h
    obtain ⟨h1, h2⟩ := h
    conv_lhs => rw [interpValueL.eq_def]
    simp only [if_neg h1, ih h2]

lemma lookupKV_upsertKV (l : List (String × String)) (key v : String) :
    lookupKV (upsertKV l key v) key = some v := by
  induction l with
  | nil => simp [upsertKV, lookupKV]
  | cons p rest ih =>
    obtain ⟨k0, v0⟩ := p
    by_cases h : k0 = key
    · simp [upsertKV, h, lookupKV]
    · simp [upsertKV, h, lookupKV, ih]

lemma lookupSec_upsert (s : List (String × List (String × String)))
    (sec key v : String) :
    ∃ kvs, lookupKV (upsertSection s sec key v) sec = some kvs ∧
      lookupKV kvs key = some v := by
  induction s with
  | nil =>
    exact ⟨[(key, v)], by simp [upsertSection, lookupKV]⟩
  | cons p rest ih =>
    obtain ⟨s0, kvs0⟩ := p
    by_cases h : s0 = sec
    · exact ⟨upsertKV kvs0 key v,
        by simp [upsertSection, h, lookupKV, lookupKV_upsertKV]⟩
    · obtain ⟨kvs, h1, h2⟩ := ih
      exact ⟨kvs, by simp [upsertSection, h, lookupKV, h1], h2⟩

/-! Claim theorems: credential resolution. -/

/-- C2: credential resolution obeys the precedence the spec states: a
non-empty environment value is returned regardless of the config file; with
the environment variable absent or empty, the config file entry is returned
when reading it yields one, and NotFound (modelled as ok none) is returned
when the file holds no auth/api_key entry. -/
theorem c2_credential_precedence (env : Option String) (cfg : ConfigFileState) :
    (∀ s : String, env = some s → s ≠ "" → get_api_key env cfg = .ok (some s)) ∧
    ((env = none ∨ env = some "") →
      (∀ v : String, configLookup cfg = .ok (some v) →
        get_api_key env cfg = .ok (some v)) ∧
      (configLookup cfg = .ok none → get_api_key env cfg = .ok none)) := by
  constructor
  · intro s hs hne
    subst hs
    simp [get_api_key, hne]
  · intro henv
    have hg : get_api_key env cfg = configLookup cfg := by
      rcases henv with h | h <;> subst h <;> simp [get_api_key]
    exact ⟨fun v hv => by rw [hg, hv], fun hv => by rw [hg, hv]⟩

/-- Witness for c2_credential_precedence: with the environment unset and a
config file holding the entry, resolution returns the stored value. -/
theorem c2_credential_precedence_witness :
    get_api_key none (ConfigFileState.parsed [("auth", [("api_key", "k")])]) =
      .ok (some "k") :=
  ((c2_credential_precedence none
      (ConfigFileState.parsed [("auth", [("api_key", "k")])])).2
    (Or.inl rfl)).1 "k" (by decide)

/-- C6 counterexample: on a config file that exists but is not parseable as
INI, resolution raises the parse error (config.read sits outside the try
that catches KeyError and ValueError) instead of reporting NotFound. -/
theorem c6_malformed_config_raises :
    get_api_key none ConfigFileState.malformed =
      .error (PyExc.parsingError "File contains no section headers.") ∧
    ∀ r : Option String, get_api_key none ConfigFileState.malformed ≠ .ok r := by
  refine ⟨rfl, ?_⟩
  intro r h
  exact Except.noConfusion h

/-- C6 amended: resolution is total — it returns a credential or NotFound
without raising — for every config state that reads cleanly (absent,
unreadable hence silently skipped, or parsed with an interpolation-clean
entry); a file that is not parseable as INI raises instead. -/
theorem c6_resolution_total_when_readable (env : Option String)
    (cfg : ConfigFileState) (h : configReadsClean cfg = true) :
    ∃ r : Option String, get_api_key env cfg = .ok r := by
  have hc : ∃ r : Option String, configLookup cfg = .ok r := by
    cases cfg with
    | absent => exact ⟨none, rfl⟩
    | unreadable => exact ⟨none, rfl⟩
    | malformed => simp [configReadsClean] at h
    | parsed s =>
      cases hA : lookupKV s "auth" with
      | none => exact ⟨none, by simp [configLookup, configReadSections, hA]⟩
      | some kvs =>
        cases hK : lookupKV kvs "api_key" with
        | none =>
          exact ⟨none, by simp [configLookup, configReadSections, hA, hK]⟩
        | some v =>
          cases hI : interpValueL v.data with
          | ok w =>
            exact ⟨some (String.mk w),
              by simp [configLookup, configReadSections, hA, hK, hI]⟩
          | error e =>
            exfalso
            simp [configReadsClean, hA, hK, hI] at h
  cases env with
  | none => simpa [get_api_key] using hc
  | some s =>
    by_cases hne : s = ""
    · subst hne; simpa [get_api_key] using hc
    · exact ⟨some s, by simp [get_api_key, hne]⟩

/-- Witness for c6_resolution_total_when_readable at the absent state. -/
theorem c6_resolution_total_when_readable_witness :
    ∃ r : Option String, get_api_key none ConfigFileState.absent = .ok r :=
  c6_resolution_total_when_readable none ConfigFileState.absent rfl

/-- C8 counterexample: store then resolve is not the identity on every
credential string.  Storing a value with a stray percent raises ValueError
out of the interpolation check before anything is written, and a value with
leading whitespace is silently stripped by the write-then-read trip. -/
theorem c8_store_resolve_not_identity :
    storeThenResolve ConfigFileState.absent "100%" =
      .error (PyExc.valueError "invalid interpolation syntax in value") ∧
    storeThenResolve ConfigFileState.absent " a" = .ok (some "a") ∧
    storeThenResolve ConfigFileState.absent " a" ≠ .ok (some " a") := by
  refine ⟨by decide, by decide, by decide⟩

/-- C8 amended: store then resolve (environment unset) returns exactly the
stored credential for every value that serialisation preserves: no percent
characters, no carriage returns, and fixed under the INI write-then-read
transformation (no leading or trailing whitespace on any of its lines, no
trailing blank lines); the prior config state may be anything readable. -/
theorem c8_roundtrip_for_storable_values (cfg : ConfigFileState) (k : String)
    (hm : cfg ≠ ConfigFileState.malformed)
    (hp : hasCharL '%' k.data = false)
    (hr : hasCharL '\r' k.data = false)
    (hs : iniReadBackL k.data = k.data) :
    storeThenResolve cfg k = .ok (some k) := by
  obtain ⟨sections, hsec⟩ : ∃ s, configReadSections cfg = .ok s := by
    cases cfg with
    | absent => exact ⟨[], rfl⟩
    | unreadable => exact ⟨[], rfl⟩
    | malformed => exact absurd rfl hm
    | parsed s => exact ⟨s, rfl⟩
  have hbs : before_set_okL k.data = true :=
    bsetGo_no_percent k.data k.data.length (Nat.le_refl _) hp
  have hpb : parseBackValueL k.data = .ok k.data := by
    rw [parseBackValueL_nocr k.data hr, hs]
  have hmk : String.mk k.data = k := by cases k; rfl
  obtain ⟨kvs, h1, h2⟩ := lookupSec_upsert sections "auth" "api_key" (String.mk k.data)
  unfold storeThenResolve setup_api_key
  simp only [hsec, hbs, if_true, hpb]
  simp only [get_api_key, configLookup, configReadSections, h1, h2]
  simp only [interpValueL_no_percent k.data hp]

/-- Witness for c8_roundtrip_for_storable_values on a plain credential. -/
theorem c8_roundtrip_witness :
    storeThenResolve ConfigFileState.absent "secret123" = .ok (some "secret123") :=
  c8_roundtrip_for_storable_values ConfigFileState.absent "secret123"
    (by decide) (by decide) (by decide) (by decide)

/-! Claim theorem: missing-credential handling at process level. -/

/-- C1: with no credential available (environment unset, config file
absent), each of the upload, batch and query commands prints the
missing-credential message and makes no network call, but the process exits
with status 0, not non-zero: the ValueError raised by get_headers is
swallowed by the generic except-Exception handlers inside upload_pdf and
query_documents, so the except-ValueError/sys.exit(1) handler in main is
never reached. -/
theorem c1_no_credential_exits_zero :
    (mainRun noKeyWorld (Command.upload "doc.pdf")).exitCode = 0 ∧
    requestsOf (mainRun noKeyWorld (Command.upload "doc.pdf")).actions = [] ∧
    countEvent isMissingKeyUnexpected
      (mainRun noKeyWorld (Command.upload "doc.pdf")).actions = 1 ∧
    (mainRun noKeyWorld (Command.batch "d")).exitCode = 0 ∧
    requestsOf (mainRun noKeyWorld (Command.batch "d")).actions = [] ∧
    countEvent isMissingKeyUnexpected
      (mainRun noKeyWorld (Command.batch "d")).actions = 1 ∧
    (mainRun noKeyWorld (Command.query "q")).exitCode = 0 ∧
    requestsOf (mainRun noKeyWorld (Command.query "q")).actions = [] ∧
    countEvent isMissingKeyQueryError
      (mainRun noKeyWorld (Command.query "q")).actions = 1 := by
  exact ⟨rfl, rfl, rfl, rfl, rfl, rfl, rfl, rfl, rfl⟩

/-! Lemmas about request traces. -/

lemma requestsOf_nil : requestsOf [] = [] := rfl

lemma requestsOf_cons_out (e : OutputEvent) (as : List Act) :
    requestsOf (Act.out e :: as) = requestsOf as := rfl

lemma requestsOf_cons_net (r : Request) (as : List Act) :
    requestsOf (Act.net r :: as) = r :: requestsOf as := rfl

lemma requestsOf_append (a b : List Act) :
    requestsOf (a ++ b) = requestsOf a ++ requestsOf b :=
  List.filterMap_append a b _

lemma requestsOf_map_out {α : Type} (f : α → OutputEvent) (l : List α) :
    requestsOf (l.map (fun x => Act.out (f x))) = [] := by
  induction l with
  | nil => rfl
  | cons x rest ih => simpa [requestsOf_cons_out] using ih

lemma requestsOf_uploadExc (e : PyExc) : requestsOf (uploadExcActions e) = [] := by
  cases e <;> rfl

lemma requestsOf_classify (resp : HttpResponse) :
    requestsOf (classifyResponse resp).1 = [] := by
  unfold classifyResponse
  repeat' split
  all_goals
    simp [requestsOf_append, requestsOf_cons_out, requestsOf_nil, requestsOf_uploadExc]

lemma get_headers_inv (env : Option String) (cfg : ConfigFileState) (b : Bool)
    (h : Headers) (ha : List Act) (hgh : get_headers env cfg b = .ok (h, ha)) :
    (∃ k : String, k ≠ "" ∧ h.authorization = "Bearer " ++ k) ∧
      requestsOf ha = [] := by
  unfold get_headers at hgh
  cases hg : get_api_key env cfg with
  | error e => simp only [hg] at hgh; exact Except.noConfusion hgh
  | ok k =>
    simp only [hg] at hgh
    cases k with
    | none => simp at hgh
    | some key =>
      simp only [] at hgh
      by_cases hk : key = ""
      · simp only [if_pos hk] at hgh
        exact Except.noConfusion hgh
      · simp only [if_neg hk] at hgh
        cases hgh
        exact ⟨⟨key, hk, rfl⟩, rfl⟩

lemma followRedirects_gets (r : HttpResponse) (gets : List NetOutcome) :
    ∀ q ∈ requestsOf (followRedirects r gets).1,
      q.method = Method.get ∧ q.headers = [] := by
  induction gets generalizing r with
  | nil =>
    intro q hq
    by_cases hred : r.status ∈ redirectCodes
    · cases hloc : headerGet r.headers "Location" with
      | none => simp [followRedirects, hred, hloc, requestsOf] at hq
      | some loc =>
        simp [followRedirects, hred, hloc, requestsOf] at hq
        subst hq
        exact ⟨rfl, rfl⟩
    · simp [followRedirects, hred, requestsOf] at hq
  | cons g rest ih =>
    intro q hq
    by_cases hred : r.status ∈ redirectCodes
    · cases hloc : headerGet r.headers "Location" with
      | none => simp [followRedirects, hred, hloc, requestsOf] at hq
      | some loc =>
        cases g with
        | connectionFailed m =>
          simp [followRedirects, hred, hloc, requestsOf] at hq
          subst hq
          exact ⟨rfl, rfl⟩
        | requestFailed m =>
          simp [followRedirects, hred, hloc, requestsOf] at hq
          subst hq
          exact ⟨rfl, rfl⟩
        | ok r2 =>
          cases hfr : followRedirects r2 rest with
          | mk racts res =>
            cases res with
            | ok p =>
              cases p with
              | mk fin n =>
                simp [followRedirects, hred, hloc, hfr, requestsOf] at hq
                rcases hq with hq | ⟨a, hmem, hma⟩
                · subst hq; exact ⟨rfl, rfl⟩
                · have hmem2 : q ∈ requestsOf racts :=
                    List.mem_filterMap.mpr ⟨a, hmem, hma⟩
                  have hres := ih r2 q
                  rw [hfr] at hres
                  exact hres hmem2
            | error e =>
              simp [followRedirects, hred, hloc, hfr, requestsOf] at hq
              rcases hq with hq | ⟨a, hmem, hma⟩
              · subst hq; exact ⟨rfl, rfl⟩
              · have hmem2 : q ∈ requestsOf racts :=
                  List.mem_filterMap.mpr ⟨a, hmem, hma⟩
                have hres := ih r2 q
                rw [hfr] at hres
                exact hres hmem2
    · simp [followRedirects, hred, requestsOf] at hq

lemma requestsOf_if_out (c : Prop) [Decidable c] (e : OutputEvent) :
    requestsOf (if c then [Act.out e] else []) = [] := by
  split <;> rfl

lemma upload_requests_no_headers (f : String) (fe : Bool) (sz : Nat)
    (env : Option String) (cfg : ConfigFileState) (post : NetOutcome)
    (gets : List NetOutcome)
    (hng : ∀ h ha, get_headers env cfg true ≠ .ok (h, ha)) :
    requestsOf (upload_pdf f fe sz env cfg post gets).actions = [] := by
  cases fe with
  | false => simp [upload_pdf, requestsOf_append, requestsOf_cons_out, requestsOf_nil]
  | true =>
    cases hgh : get_headers env cfg true with
    | error e =>
      simp [upload_pdf, hgh, requestsOf_append, requestsOf_cons_out,
        requestsOf_nil, requestsOf_uploadExc]
    | ok p => exact absurd hgh (hng p.1 p.2)

lemma upload_requests_shape (f : String) (fe : Bool) (sz : Nat)
    (env : Option String) (cfg : ConfigFileState) (post : NetOutcome)
    (gets : List NetOutcome) :
    requestsOf (upload_pdf f fe sz env cfg post gets).actions = [] ∨
    ∃ h ha tail, get_headers env cfg true = .ok (h, ha) ∧
      requestsOf (upload_pdf f fe sz env cfg post gets).actions =
        ({ method := .post, url := uploadUrl, headers := headersList h,
           body := .multipartFile "file" (basename f) sz "application/pdf" } :
          Request) :: tail ∧
      ∀ q ∈ tail, q.method = Method.get ∧ q.headers = [] := by
  cases fe with
  | false =>
    left
    simp [upload_pdf, requestsOf_append, requestsOf_cons_out, requestsOf_nil]
  | true =>
    cases hgh : get_headers env cfg true with
    | error e =>
      left
      simp [upload_pdf, hgh, requestsOf_append, requestsOf_cons_out,
        requestsOf_nil, requestsOf_uploadExc]
    | ok p =>
      obtain ⟨h, ha⟩ := p
      have hha : requestsOf ha = [] := (get_headers_inv env cfg true h ha hgh).2
      right
      cases post with
      | connectionFailed m =>
        exact ⟨h, ha, [], rfl, by
          simp [upload_pdf, hgh, requestsOf_append, requestsOf_cons_out,
            requestsOf_cons_net, requestsOf_nil, hha], by simp⟩
      | requestFailed m =>
        exact ⟨h, ha, [], rfl, by
          simp [upload_pdf, hgh, requestsOf_append, requestsOf_cons_out,
            requestsOf_cons_net, requestsOf_nil, hha], by simp⟩
      | ok r0 =>
        cases hfr : followRedirects r0 gets with
        | mk racts res =>
          refine ⟨h, ha, requestsOf racts, rfl, ?_, ?_⟩
          · cases res with
            | ok q =>
              obtain ⟨resp, hops⟩ := q
              simp [upload_pdf, hgh, hfr, requestsOf_append, requestsOf_cons_out,
                requestsOf_cons_net, requestsOf_nil, hha, requestsOf_classify,
                requestsOf_if_out]
            | error e =>
              simp [upload_pdf, hgh, hfr, requestsOf_append, requestsOf_cons_out,
                requestsOf_cons_net, requestsOf_nil, hha, requestsOf_uploadExc]
          · intro q hq
            have hres := followRedirects_gets r0 gets q
            rw [hfr] at hres
            exact hres hq

lemma requestsOf_renderLoop (i : Nat) (items : List JsonVal) :
    requestsOf (renderLoop i items) = [] := by
  induction items generalizing i with
  | nil => rfl
  | cons x rest ih =>
    cases x with
    | obj fs =>
      simp only [renderLoop]
      repeat' split
      all_goals simp [requestsOf_cons_out, requestsOf_nil, ih]
    | null => rfl
    | bool b => rfl
    | num n => rfl
    | str s => rfl
    | arr xs => rfl

lemma query_requests_shape (env : Option String) (cfg : ConfigFileState)
    (qt : String) (qnet : NetOutcome) :
    (requestsOf (query_documents env cfg qt qnet) = [] ∧
      ∀ h ha, get_headers env cfg false ≠ .ok (h, ha)) ∨
    ∃ h ha, get_headers env cfg false = .ok (h, ha) ∧
      requestsOf (query_documents env cfg qt qnet) =
        [{ method := .post, url := queryUrl, headers := headersList h,
           body := .jsonBody [("query", qt)] }] := by
  cases hgh : get_headers env cfg false with
  | error e =>
    left
    constructor
    · simp [query_documents, hgh, requestsOf_cons_out, requestsOf_nil]
    · intro h ha hc
      exact Except.noConfusion hc
  | ok p =>
    obtain ⟨h, ha⟩ := p
    have hha : requestsOf ha = [] := (get_headers_inv env cfg false h ha hgh).2
    right
    refine ⟨h, ha, rfl, ?_⟩
    cases qnet with
    | connectionFailed m =>
      simp [query_documents, hgh, requestsOf_append, requestsOf_cons_out,
        requestsOf_cons_net, requestsOf_nil, hha]
    | requestFailed m =>
      simp [query_documents, hgh, requestsOf_append, requestsOf_cons_out,
        requestsOf_cons_net, requestsOf_nil, hha]
    | ok r =>
      simp only [query_documents, hgh]
      repeat' split
      all_goals simp [requestsOf_append, requestsOf_cons_out,
        requestsOf_cons_net, requestsOf_nil, hha, requestsOf_renderLoop]

/-! Claim theorems: the credential invariant on outbound requests. -/

/-- C3 counterexample: an upload whose POST is answered by a 302 re-issues
a GET to the Location target with no headers dict at all (session.get is
called without headers), so that request carries no Authorization header:
not every outbound request carries a credential. -/
theorem c3_redirect_get_lacks_credential :
    ¬ (∀ q ∈ requestsOf (upload_pdf "f.pdf" true 3 (some "k")
        ConfigFileState.absent
        (NetOutcome.ok ⟨302, [("Location", "http://x")], none, "", ""⟩)
        [NetOutcome.ok ⟨200, [], none, "nope", "http://x"⟩]).actions,
        hasBearer q) := by
  intro hall
  have hmem : (⟨Method.get, "http://x", [], ReqBody.noBody⟩ : Request) ∈
      requestsOf (upload_pdf "f.pdf" true 3 (some "k")
        ConfigFileState.absent
        (NetOutcome.ok ⟨302, [("Location", "http://x")], none, "", ""⟩)
        [NetOutcome.ok ⟨200, [], none, "nope", "http://x"⟩]).actions := by
    decide
  obtain ⟨k, hk, hmem2⟩ := hall _ hmem
  exact absurd hmem2 (List.not_mem_nil _)

/-- C3 amended: every POST the tool builds (the upload request and the
query request) carries a non-empty Bearer credential in its headers, and
when no credential resolves no request is issued at all; the GETs issued to
follow upload redirects, however, are sent with an empty headers dict and
hence no Authorization header. -/
theorem c3_posts_carry_bearer (f : String) (fe : Bool) (sz : Nat)
    (env : Option String) (cfg : ConfigFileState) (post : NetOutcome)
    (gets : List NetOutcome) (qt : String) (qnet : NetOutcome) :
    (∀ q ∈ requestsOf (upload_pdf f fe sz env cfg post gets).actions,
        q.method = Method.post → hasBearer q) ∧
    (∀ q ∈ requestsOf (upload_pdf f fe sz env cfg post gets).actions,
        q.method = Method.get → q.headers = []) ∧
    (∀ q ∈ requestsOf (query_documents env cfg qt qnet), hasBearer q) ∧
    ((∀ h ha, get_headers env cfg true ≠ .ok (h, ha)) →
      requestsOf (upload_pdf f fe sz env cfg post gets).actions = []) ∧
    ((∀ h ha, get_headers env cfg false ≠ .ok (h, ha)) →
      requestsOf (query_documents env cfg qt qnet) = []) := by
  have hu := upload_requests_shape f fe sz env cfg post gets
  have hq := query_requests_shape env cfg qt qnet
  refine ⟨?_, ?_, ?_, ?_, ?_⟩
  · intro q hqq hpost
    rcases hu with hemp | ⟨h, ha, tail, hgh, hreq, htail⟩
    · rw [hemp] at hqq
      exact absurd hqq (List.not_mem_nil q)
    · rw [hreq] at hqq
      rcases List.mem_cons.mp hqq with hq1 | hq1
      · subst hq1
        obtain ⟨⟨k, hk, hauth⟩, _⟩ := get_headers_inv env cfg true h ha hgh
        exact ⟨k, hk, by simp [headersList, hauth]⟩
      · have hget := (htail q hq1).1
        rw [hpost] at hget
        exact Method.noConfusion hget
  · intro q hqq hget
    rcases hu with hemp | ⟨h, ha, tail, hgh, hreq, htail⟩
    · rw [hemp] at hqq
      exact absurd hqq (List.not_mem_nil q)
    · rw [hreq] at hqq
      rcases List.mem_cons.mp hqq with hq1 | hq1
      · rw [hq1] at hget
        exact Method.noConfusion hget
      · exact (htail q hq1).2
  · intro q hqq
    rcases hq with ⟨hemp, _⟩ | ⟨h, ha, hgh, hreq⟩
    · rw [hemp] at hqq
      exact absurd hqq (List.not_mem_nil q)
    · rw [hreq] at hqq
      rw [List.mem_singleton.mp hqq]
      obtain ⟨⟨k, hk, hauth⟩, _⟩ := get_headers_inv env cfg false h ha hgh
      exact ⟨k, hk, by simp [headersList, hauth]⟩
  · intro hng
    exact upload_requests_no_headers f fe sz env cfg post gets hng
  · intro hng
    rcases hq with ⟨hemp, _⟩ | ⟨h, ha, hgh, _⟩
    · exact hemp
    · exact absurd hgh (hng h ha)

/-- Witness for c3_posts_carry_bearer: the POST of a concrete upload whose
transport fails carries the Bearer credential. -/
theorem c3_posts_carry_bearer_witness :
    hasBearer { method := Method.post, url := uploadUrl,
                headers := [("Authorization", "Bearer k")],
                body := ReqBody.multipartFile "file" "f.pdf" 3 "application/pdf" } :=
  (c3_posts_carry_bearer "f.pdf" true 3 (some "k") ConfigFileState.absent
    (NetOutcome.connectionFailed "refused") [] "q"
    (NetOutcome.connectionFailed "refused")).1
    { method := Method.post, url := uploadUrl,
      headers := [("Authorization", "Bearer k")],
      body := ReqBody.multipartFile "file" "f.pdf" 3 "application/pdf" }
    (by decide) rfl

lemma followRedirects_non_redirect (r : HttpResponse) (gets : List NetOutcome)
    (h : redirectCodes.contains r.status = false) :
    followRedirects r gets = ([], .ok (r, 0)) := by
  have h2 : r.status ∉ redirectCodes := by simpa using h
  cases gets <;> simp [followRedirects, h2]

/-! Claim theorems: upload success classification. -/

/-- C5 counterexample: a 200 response whose body reports success and
carries document_id and metadata but no message field makes the upload
return False: result['message'] raises KeyError into the generic handler
(reported as an unexpected KeyError), although the claim calls for
success. -/
theorem c5_success_without_message_fails :
    (upload_pdf "f.pdf" true 3 (some "k") ConfigFileState.absent
      (NetOutcome.ok ⟨200, [],
        some (JsonVal.obj [("success", JsonVal.bool true),
          ("document_id", JsonVal.str "X"), ("metadata", JsonVal.obj [])]),
        "t", "u"⟩) []).result = false ∧
    countEvent
      (fun e => match e with
        | .unexpectedError t m => t == "KeyError" && m == "'message'"
        | _ => false)
      (upload_pdf "f.pdf" true 3 (some "k") ConfigFileState.absent
        (NetOutcome.ok ⟨200, [],
          some (JsonVal.obj [("success", JsonVal.bool true),
            ("document_id", JsonVal.str "X"), ("metadata", JsonVal.obj [])]),
          "t", "u"⟩) []).actions = 1 := by
  exact ⟨rfl, rfl⟩

/-- C5 amended: a terminal 200 response whose JSON body has a truthy
success, a document_id, a message and an object (or absent) metadata makes
the upload print the document id, the message and the metadata fields
echoed from the body, and return True. -/
theorem c5_success_with_message (f : String) (sz : Nat) (env : Option String)
    (cfg : ConfigFileState) (gets : List NetOutcome) (h : Headers)
    (ha : List Act) (rhs : List (String × String)) (tx u : String)
    (fs : List (String × JsonVal)) (did msg : JsonVal)
    (mfs : List (String × JsonVal)) (t : UploadTrace)
    (ht : t = upload_pdf f true sz env cfg
      (NetOutcome.ok ⟨200, rhs, some (JsonVal.obj fs), tx, u⟩) gets)
    (hgh : get_headers env cfg true = .ok (h, ha))
    (hsucc : (match jget fs "success" with
              | some v => v.truthy | none => false) = true)
    (hdoc : jget fs "document_id" = some did)
    (hmsg : jget fs "message" = some msg)
    (hmeta : (jget fs "metadata").getD (JsonVal.obj []) = JsonVal.obj mfs) :
    t.result = true ∧
    Act.out (.documentId did) ∈ t.actions ∧
    Act.out (.serverMessage msg) ∈ t.actions ∧
    Act.out (.metaFilename (jget mfs "filename")) ∈ t.actions ∧
    Act.out (.metaSize (jget mfs "size")) ∈ t.actions ∧
    Act.out (.metaContentType (jget mfs "content_type")) ∈ t.actions := by
  subst ht
  have hfr : followRedirects
      (⟨200, rhs, some (JsonVal.obj fs), tx, u⟩ : HttpResponse) gets =
      ([], .ok (⟨200, rhs, some (JsonVal.obj fs), tx, u⟩, 0)) :=
    followRedirects_non_redirect _ gets
      (by show redirectCodes.contains (200 : Nat) = false; rfl)
  have hcl : classifyResponse (⟨200, rhs, some (JsonVal.obj fs), tx, u⟩ : HttpResponse) =
      ([.out .uploadSuccessBanner, .out (.documentId did),
        .out (.serverMessage msg), .out .metadataBanner,
        .out (.metaFilename (jget mfs "filename")),
        .out (.metaSize (jget mfs "size")),
        .out (.metaContentType (jget mfs "content_type"))], true) := by
    simp only [classifyResponse, hsucc, hdoc, hmsg, hmeta]
    simp
  simp only [upload_pdf, hgh, hfr, hcl]
  refine ⟨rfl, ?_, ?_, ?_, ?_, ?_⟩
  all_goals simp [List.mem_append, List.mem_cons]

/-- Witness for c5_success_with_message at a concrete upload. -/
theorem c5_success_with_message_witness :
    (upload_pdf "f.pdf" true 3 (some "k") ConfigFileState.absent
      (NetOutcome.ok ⟨200, [],
        some (JsonVal.obj [("success", JsonVal.bool true),
          ("document_id", JsonVal.str "X"), ("message", JsonVal.str "ok"),
          ("metadata", JsonVal.obj [("filename", JsonVal.str "f.pdf")])]),
        "t", "u"⟩) []).result = true :=
  (c5_success_with_message "f.pdf" 3 (some "k") ConfigFileState.absent []
    ⟨"Bearer k", none⟩
    [Act.out (.debugApiKeyLen 1),
     Act.out (.debugHeaders [("Authorization", "Bearer k")])]
    [] "t" "u"
    [("success", JsonVal.bool true), ("document_id", JsonVal.str "X"),
     ("message", JsonVal.str "ok"),
     ("metadata", JsonVal.obj [("filename", JsonVal.str "f.pdf")])]
    (JsonVal.str "X") (JsonVal.str "ok")
    [("filename", JsonVal.str "f.pdf")] _ rfl rfl rfl rfl rfl rfl).1

/-! Claim theorem: redirect handling on upload. -/

/-- C9: when the upload POST is answered by a 302 with a Location and the
response to the follow-up is not a redirect, the redirect is followed
exactly once by re-issuing a GET to the Location target, the hop (status
code and target URL) is printed before the final status is classified, and
the trace sends exactly the POST and that one GET.  The first conjunct
pins the whole trace: the redirectHop print and the GET come after the
POST and before the followed-count, final-status and classification
prints. -/
theorem c9_redirect_followed_once (f : String) (sz : Nat)
    (env : Option String) (cfg : ConfigFileState) (h : Headers)
    (ha : List Act) (r0 r1 : HttpResponse) (L : String) (t : UploadTrace)
    (ht : t = upload_pdf f true sz env cfg (.ok r0) [.ok r1])
    (hgh : get_headers env cfg true = .ok (h, ha))
    (h0 : r0.status = 302)
    (hL : headerGet r0.headers "Location" = some L)
    (h1 : redirectCodes.contains r1.status = false) :
    t.actions =
      [Act.out (.sendingPost uploadUrl), Act.out (.startingUpload f),
       Act.out (.targetUrl uploadUrl), Act.out .openingFile,
       Act.out (.fileSizeIs sz)] ++ ha ++
      [Act.out (.debugHeaders (headersList h)), Act.out .fileOpened,
       Act.net ⟨Method.post, uploadUrl, headersList h,
         ReqBody.multipartFile "file" (basename f) sz "application/pdf"⟩,
       Act.out (.uploadSent sz),
       Act.out (.redirectHop 302 L),
       Act.net ⟨Method.get, L, [], ReqBody.noBody⟩,
       Act.out (.followedRedirects 1 r1.url),
       Act.out (.finalStatus r1.status),
       Act.out (.responseHeaders r1.headers),
       Act.out (.rawResponse r1.text)] ++
      (classifyResponse r1).1 ∧
    requestsOf t.actions =
      [⟨Method.post, uploadUrl, headersList h,
        ReqBody.multipartFile "file" (basename f) sz "application/pdf"⟩,
       ⟨Method.get, L, [], ReqBody.noBody⟩] := by
  subst ht
  have hha : requestsOf ha = [] := (get_headers_inv env cfg true h ha hgh).2
  have hc : redirectCodes.contains r0.status = true := by
    rw [h0]; decide
  have hfr : followRedirects r0 [NetOutcome.ok r1] =
      ([Act.out (.redirectHop 302 L),
        Act.net ⟨Method.get, L, [], ReqBody.noBody⟩], .ok (r1, 1)) := by
    have h1m : ¬(r1.status = 301 ∨ r1.status = 302 ∨ r1.status = 303 ∨
        r1.status = 307 ∨ r1.status = 308) := by
      simpa [redirectCodes] using h1
    simp [followRedirects, hc, hL, h1m, h0, redirectCodes]
  constructor
  · simp only [upload_pdf, hgh, hfr, hc]
    simp [classifyResponse]
  · simp only [upload_pdf, hgh, hfr]
    simp [requestsOf_append, requestsOf_cons_out, requestsOf_cons_net,
      requestsOf_nil, hha, requestsOf_classify, requestsOf_if_out]

/-- Witness for c9_redirect_followed_once: a concrete 302 upload issues
exactly the POST and one GET to the redirect target. -/
theorem c9_redirect_followed_once_witness :
    requestsOf (upload_pdf "f.pdf" true 3 (some "k") ConfigFileState.absent
      (NetOutcome.ok ⟨302, [("Location", "http://x")], none, "", ""⟩)
      [NetOutcome.ok ⟨200, [], none, "done", "http://x"⟩]).actions =
      [⟨Method.post, uploadUrl, [("Authorization", "Bearer k")],
        ReqBody.multipartFile "file" "f.pdf" 3 "application/pdf"⟩,
       ⟨Method.get, "http://x", [], ReqBody.noBody⟩] :=
  (c9_redirect_followed_once "f.pdf" 3 (some "k") ConfigFileState.absent
    ⟨"Bearer k", none⟩
    [Act.out (.debugApiKeyLen 1),
     Act.out (.debugHeaders [("Authorization", "Bearer k")])]
    ⟨302, [("Location", "http://x")], none, "", ""⟩
    ⟨200, [], none, "done", "http://x"⟩ "http://x" _ rfl rfl rfl (by decide)
    (by decide)).2

/-! Lemmas about the batch loop and event counts. -/

lemma countEvent_nil (p : OutputEvent → Bool) : countEvent p [] = 0 := rfl

lemma countEvent_cons_out (p : OutputEvent → Bool) (e : OutputEvent)
    (as : List Act) :
    countEvent p (Act.out e :: as) =
      countEvent p as + (if p e then 1 else 0) := by
  simp [countEvent, List.countP_cons]

lemma countEvent_cons_net (p : OutputEvent → Bool) (r : Request)
    (as : List Act) :
    countEvent p (Act.net r :: as) = countEvent p as := by
  simp [countEvent, List.countP_cons]

lemma countEvent_append (p : OutputEvent → Bool) (a b : List Act) :
    countEvent p (a ++ b) = countEvent p a + countEvent p b := by
  simp [countEvent, List.countP_append]

lemma countEvent_out_map_zero (p : OutputEvent → Bool) {α : Type}
    (f : α → OutputEvent) (l : List α) (h : ∀ x, p (f x) = false) :
    countEvent p (l.map fun x => Act.out (f x)) = 0 := by
  induction l with
  | nil => rfl
  | cons x rest ih => simp [countEvent_cons_out, h, ih]

lemma batchLoop_spec (env : Option String) (cfg : ConfigFileState)
    (scen : Nat → UploadScenario) (files : List WalkEntry) :
    ∀ i : Nat,
      (batchLoop env cfg scen i files).2.1 =
        ((List.enumFrom i files).filter
          (fun p => uploadOk env cfg (scen p.1) p.2.full)).length ∧
      (batchLoop env cfg scen i files).2.2 =
        ((List.enumFrom i files).filter
          (fun p => !uploadOk env cfg (scen p.1) p.2.full)).map
          (fun p => p.2.rel) ∧
      (batchLoop env cfg scen i files).2.1 +
        ((batchLoop env cfg scen i files).2.2).length = files.length := by
  induction files with
  | nil => intro i; exact ⟨rfl, rfl, rfl⟩
  | cons e rest ih =>
    intro i
    obtain ⟨ih1, ih2, ih3⟩ := ih (i + 1)
    have hres : (upload_pdf e.full (scen i).fileExists (scen i).size env cfg
        (scen i).post (scen i).gets).result = uploadOk env cfg (scen i) e.full := rfl
    by_cases hok : uploadOk env cfg (scen i) e.full
    · refine ⟨?_, ?_, ?_⟩
      · simp [batchLoop, hres, hok, List.enumFrom, List.filter_cons, ih1]
        omega
      · simp [batchLoop, hres, hok, List.enumFrom, List.filter_cons, ih2]
      · simp [batchLoop, hres, hok, ih3]
        omega
    · refine ⟨?_, ?_, ?_⟩
      · simp [batchLoop, hres, hok, List.enumFrom, List.filter_cons, ih1]
      · simp [batchLoop, hres, hok, List.enumFrom, List.filter_cons, ih2]
      · simp [batchLoop, hres, hok, ih3]
        omega

/-! Claim theorems: batch orchestration. -/

/-- C4 counterexample: a valid directory in which zero PDF files are
discovered makes batch_upload report that no files were found and return
False, although success count equals total count (0 = 0), for which the
claim calls for an overall pass. -/
theorem c4_zero_files_returns_false :
    (batch_upload none ConfigFileState.absent
      { path := "docs", isDir := true, walk := [] } "" w4scen).result = false ∧
    (batch_upload none ConfigFileState.absent
      { path := "docs", isDir := true, walk := [] } "" w4scen).tally = none := by
  exact ⟨rfl, rfl⟩

/-- C4 amended: for a valid directory, when at least one PDF is discovered
and the run proceeds (at most ten files, or an affirmative confirmation),
the tally reports the success count equal to the number of uploads that
succeeded, the failed list exactly the relative paths of the failed files
in discovery order, success count plus failures equals the total, and the
returned boolean is success count == total; when zero PDF files are
discovered the run reports no files found and returns False with no
tally. -/
theorem c4_batch_tally (env : Option String) (cfg : ConfigFileState)
    (d : DirListing) (confirm : String) (scen : Nat → UploadScenario)
    (hd : d.isDir = true) :
    (find_pdf_files d = [] →
      (batch_upload env cfg d confirm scen).result = false ∧
      (batch_upload env cfg d confirm scen).tally = none) ∧
    (find_pdf_files d ≠ [] →
      ((find_pdf_files d).length ≤ 10 ∨ pyLower confirm = "y") →
      (batch_upload env cfg d confirm scen).tally =
        some (((List.enumFrom 0 (find_pdf_files d)).filter
                (fun p => uploadOk env cfg (scen p.1) p.2.full)).length,
              ((List.enumFrom 0 (find_pdf_files d)).filter
                (fun p => !uploadOk env cfg (scen p.1) p.2.full)).map
                (fun p => p.2.rel)) ∧
      ((List.enumFrom 0 (find_pdf_files d)).filter
          (fun p => uploadOk env cfg (scen p.1) p.2.full)).length +
        (((List.enumFrom 0 (find_pdf_files d)).filter
          (fun p => !uploadOk env cfg (scen p.1) p.2.full)).map
          (fun p => p.2.rel)).length = (find_pdf_files d).length ∧
      (batch_upload env cfg d confirm scen).result =
        (((List.enumFrom 0 (find_pdf_files d)).filter
            (fun p => uploadOk env cfg (scen p.1) p.2.full)).length ==
          (find_pdf_files d).length)) := by
  obtain ⟨hs1, hs2, hs3⟩ := batchLoop_spec env cfg scen (find_pdf_files d) 0
  constructor
  · intro hnil
    constructor
    · simp [batch_upload, hd, hnil]
    · simp [batch_upload, hd, hnil]
  · intro hne hp
    have hie : (find_pdf_files d).isEmpty = false := by
      cases hfd : find_pdf_files d with
      | nil => exact absurd hfd hne
      | cons a as => rfl
    by_cases hgt : (find_pdf_files d).length > 10
    · have hy : pyLower confirm = "y" := by
        rcases hp with hp | hp
        · omega
        · exact hp
      refine ⟨?_, ?_, ?_⟩
      · simp [batch_upload, hd, hie, hgt, hy, batchProceed, hs1, hs2]
      · rw [← hs1, ← hs2]; exact hs3
      · simp [batch_upload, hd, hie, hgt, hy, batchProceed, hs1]
    · refine ⟨?_, ?_, ?_⟩
      · simp [batch_upload, hd, hie, hgt, batchProceed, hs1, hs2]
      · rw [← hs1, ← hs2]; exact hs3
      · simp [batch_upload, hd, hie, hgt, batchProceed, hs1]

/-- Witness for c4_batch_tally: two discovered files of which the second
fails give success count 1, failed list exactly the second relative path,
and an overall failure verdict. -/
theorem c4_batch_tally_witness :
    (batch_upload (some "k") ConfigFileState.absent w4dir "" w4scen).tally =
      some (1, ["b.pdf"]) ∧
    (batch_upload (some "k") ConfigFileState.absent w4dir "" w4scen).result =
      false := by
  have h := (c4_batch_tally (some "k") ConfigFileState.absent w4dir "" w4scen
    rfl).2 (by decide) (Or.inl (by decide))
  constructor
  · rw [h.1]; decide
  · rw [h.2.2]; decide

/-- C7: when more than ten PDF files are discovered, the confirmation
prompt is issued after the listing and before any upload or network call,
and a non-affirmative answer aborts the run: it returns False with no
tally, no per-file upload print and no network call. -/
theorem c7_confirmation_gate (env : Option String) (cfg : ConfigFileState)
    (d : DirListing) (confirm : String) (scen : Nat → UploadScenario)
    (hd : d.isDir = true) (hn : (find_pdf_files d).length > 10) :
    (∃ mid, (batch_upload env cfg d confirm scen).actions =
        (Act.out (.foundPdfs (find_pdf_files d).length) ::
          (find_pdf_files d).map (fun e => Act.out (.fileListed e.rel))) ++
        Act.out (.askedConfirm (find_pdf_files d).length) :: mid) ∧
    requestsOf (Act.out (.foundPdfs (find_pdf_files d).length) ::
      (find_pdf_files d).map (fun e => Act.out (.fileListed e.rel))) = [] ∧
    countEvent isUploadingEvent
      (Act.out (.foundPdfs (find_pdf_files d).length) ::
        (find_pdf_files d).map (fun e => Act.out (.fileListed e.rel))) = 0 ∧
    (pyLower confirm ≠ "y" →
      (batch_upload env cfg d confirm scen).result = false ∧
      (batch_upload env cfg d confirm scen).tally = none ∧
      requestsOf (batch_upload env cfg d confirm scen).actions = [] ∧
      countEvent isUploadingEvent
        (batch_upload env cfg d confirm scen).actions = 0) := by
  have hie : (find_pdf_files d).isEmpty = false := by
    cases hfd : find_pdf_files d with
    | nil => rw [hfd] at hn; simp at hn
    | cons a as => rfl
  refine ⟨?_, ?_, ?_, ?_⟩
  · by_cases hy : pyLower confirm = "y"
    · refine ⟨(batchLoop env cfg scen 0 (find_pdf_files d)).1 ++
        [Act.out (.uploadSummary (batchLoop env cfg scen 0 (find_pdf_files d)).2.1
          (find_pdf_files d).length)] ++
        (if (batchLoop env cfg scen 0 (find_pdf_files d)).2.2.isEmpty then []
         else Act.out .failedBanner ::
          (batchLoop env cfg scen 0 (find_pdf_files d)).2.2.map
            (fun x => Act.out (.failedItem x))), ?_⟩
      simp [batch_upload, hd, hie, hn, hy, batchProceed]
    · refine ⟨[Act.out .uploadCancelled], ?_⟩
      simp [batch_upload, hd, hie, hn, hy]
  · simp [requestsOf_cons_out, requestsOf_map_out]
  · rw [countEvent_cons_out,
      countEvent_out_map_zero isUploadingEvent
          (fun e => OutputEvent.fileListed e.rel) (find_pdf_files d)
          (fun x => rfl)]
    rfl
  · intro hy
    refine ⟨?_, ?_, ?_, ?_⟩
    · simp [batch_upload, hd, hie, hn, hy]
    · simp [batch_upload, hd, hie, hn, hy]
    · simp [batch_upload, hd, hie, hn, hy, requestsOf_append,
        requestsOf_cons_out, requestsOf_map_out, requestsOf_nil]
    · simp [batch_upload, hd, hie, hn, hy, countEvent_append,
        countEvent_cons_out,
        countEvent_out_map_zero isUploadingEvent
          (fun e => OutputEvent.fileListed e.rel) (find_pdf_files d)
          (fun x => rfl),
        countEvent_nil, isUploadingEvent]

/-- Witness for c7_confirmation_gate: eleven files and the answer no give
an aborted run with no uploads and no network calls. -/
theorem c7_confirmation_gate_witness :
    (batch_upload none ConfigFileState.absent w11dir "no" w4scen).tally =
      none ∧
    requestsOf (batch_upload none ConfigFileState.absent w11dir "no"
      w4scen).actions = [] := by
  have h := (c7_confirmation_gate none ConfigFileState.absent w11dir "no"
    w4scen rfl (by decide)).2.2.2 (by decide)
  exact ⟨h.2.1, h.2.2.1⟩

/-- C10: at the batch confirmation prompt the only affirmative response is
the single character y compared case-insensitively (input().lower() is
compared with "y"): every other input, "yes" included, aborts the run with
a cancellation print, no tally, no upload and no network call, while an
input lowering to "y" proceeds to the upload loop and produces a tally. -/
theorem c10_confirm_only_y (env : Option String) (cfg : ConfigFileState)
    (d : DirListing) (s : String) (scen : Nat → UploadScenario)
    (hd : d.isDir = true) (hn : (find_pdf_files d).length > 10) :
    (pyLower s ≠ "y" →
      countEvent isCancelEvent (batch_upload env cfg d s scen).actions = 1 ∧
      (batch_upload env cfg d s scen).tally = none ∧
      requestsOf (batch_upload env cfg d s scen).actions = [] ∧
      countEvent isUploadingEvent (batch_upload env cfg d s scen).actions = 0 ∧
      (batch_upload env cfg d s scen).result = false) ∧
    (pyLower s = "y" →
      ∃ tl, (batch_upload env cfg d s scen).tally = some tl) := by
  have hie : (find_pdf_files d).isEmpty = false := by
    cases hfd : find_pdf_files d with
    | nil => rw [hfd] at hn; simp at hn
    | cons a as => rfl
  constructor
  · intro hy
    refine ⟨?_, ?_, ?_, ?_, ?_⟩
    · simp [batch_upload, hd, hie, hn, hy, countEvent_append,
        countEvent_cons_out,
        countEvent_out_map_zero isCancelEvent
          (fun e => OutputEvent.fileListed e.rel) (find_pdf_files d)
          (fun x => rfl),
        countEvent_nil, isCancelEvent]
    · simp [batch_upload, hd, hie, hn, hy]
    · simp [batch_upload, hd, hie, hn, hy, requestsOf_append,
        requestsOf_cons_out, requestsOf_map_out, requestsOf_nil]
    · simp [batch_upload, hd, hie, hn, hy, countEvent_append,
        countEvent_cons_out,
        countEvent_out_map_zero isUploadingEvent
          (fun e => OutputEvent.fileListed e.rel) (find_pdf_files d)
          (fun x => rfl),
        countEvent_nil, isUploadingEvent]
    · simp [batch_upload, hd, hie, hn, hy]
  · intro hy
    refine ⟨((batchLoop env cfg scen 0 (find_pdf_files d)).2.1,
             (batchLoop env cfg scen 0 (find_pdf_files d)).2.2), ?_⟩
    simp [batch_upload, hd, hie, hn, hy, batchProceed]

/-- Witness for c10_confirm_only_y: the answer yes aborts the batch even
though it is affirmative in spirit, while Y proceeds to the upload loop. -/
theorem c10_confirm_only_y_witness :
    (batch_upload none ConfigFileState.absent w11dir "yes" w4scen).tally =
      none ∧
    ((batch_upload none ConfigFileState.absent w11dir "Y"
      w4scen).tally).isSome = true := by
  constructor
  · exact ((c10_confirm_only_y none ConfigFileState.absent w11dir "yes"
      w4scen rfl (by decide)).1 (by decide)).2.1
  · obtain ⟨tl, htl⟩ := (c10_confirm_only_y none ConfigFileState.absent
      w11dir "Y" w4scen rfl (by decide)).2 (by decide)
    rw [htl]
    rfl
